import Mathlib

/-!
Shallow embedding of the SupperDropShip product-research query pipeline:
the product data model, filter predicate, sort comparator, stats
aggregator and saved-product toggle from the frontend hooks, plus the
profit-margin display helper and the (spec-documented) score composer.
Numeric fields are modelled as exact rationals; JavaScript special
values (Infinity, NaN) are modelled explicitly where the code can
produce them.  Date strings are modelled by their epoch-millisecond
value, i.e. the result of new Date(s).getTime().
-/

/-- Trend data blob: only the trend_score field is read by the code
(via trend_data?.trend_score with a fallback of 0). -/
structure TrendData where
  trend_score : Option ℚ
deriving DecidableEq

/-- Product record, from the Product interface in the useProducts hook.
facebook_ads and tiktok_mentions are opaque record sequences of which
only the length is read; created_at is the epoch-millisecond value of
the stored date string (absent when the field is missing);
supplier_prices is the list of Object.values of the supplier-price
mapping (absent when the field is missing). -/
structure Product where
  id : String
  title : String
  description : String
  price : ℚ
  compare_price : ℚ
  score : ℚ
  category : String
  tags : List String
  source_store : String
  facebook_ads : List Unit
  tiktok_mentions : List Unit
  trend_data : Option TrendData
  supplier_prices : Option (List ℚ)
  created_at : Option ℤ
deriving DecidableEq

/-- Filter options, from the FilterOptions interface in the useProducts
hook (the variant without a store field, matching the hook whose filter
applies all five clauses). -/
structure FilterOptions where
  searchTerm : String
  category : String
  minScore : ℚ
  maxPrice : ℚ
  tags : List String
deriving DecidableEq

/-- Initial filter options of the useProducts hook. -/
def defaultFilterOptions : FilterOptions :=
  { searchTerm := ""
    category := "all"
    minScore := 0
    maxPrice := 1000
    tags := [] }

/-- Boolean prefix test on character lists (String.prototype.includes
is built from this). -/
def isPrefixOfB : List Char → List Char → Bool
  | [], _ => true
  | _ :: _, [] => false
  | a :: as, b :: bs => a == b && isPrefixOfB as bs

/-- needle appears as a contiguous substring of hay, the semantics of
JavaScript String.prototype.includes on the underlying characters. -/
def containsSub (needle : List Char) : List Char → Bool
  | [] => isPrefixOfB needle []
  | c :: t => isPrefixOfB needle (c :: t) || containsSub needle (t)

/-- The characters of a string, lowercased: the character content of
s.toLowerCase(). -/
def lowerChars (s : String) : List Char :=
  s.toList.map Char.toLower

/-- hay.toLowerCase().includes(needle.toLowerCase()). -/
def strIncludesLower (hay needle : String) : Bool :=
  containsSub (lowerChars needle) (lowerChars hay)

/-- The filter predicate of useProducts.filteredProducts: search term is
a case-insensitive substring of title or description, category matches
or is "all", score is at least minScore, price is at most maxPrice, and
the requested tag list is empty or meets the tag list of the product. -/
def filterPred (f : FilterOptions) (p : Product) : Bool :=
  (strIncludesLower p.title f.searchTerm || strIncludesLower p.description f.searchTerm)
    && (f.category == "all" || p.category == f.category)
    && decide (f.minScore ≤ p.score)
    && decide (p.price ≤ f.maxPrice)
    && (f.tags.isEmpty || f.tags.any (fun tag => p.tags.contains tag))

/-- products.filter(filterPred f). -/
def filterProducts (f : FilterOptions) (ps : List Product) : List Product :=
  ps.filter (filterPred f)

/-- trend_data?.trend_score || 0 : the trend score of a product, with 0
when trend_data or its trend_score field is absent. -/
def trendScoreOf (p : Product) : ℚ :=
  match p.trend_data with
  | none => 0
  | some td =>
    match td.trend_score with
    | none => 0
    | some q => q

/-- new Date(p.created_at || 0).getTime(): the epoch milliseconds of
the creation date of the product, with the epoch itself (0) when
created_at is missing. -/
def newestTime (p : Product) : ℤ :=
  match p.created_at with
  | none => 0
  | some t => t

/-- Locale-naive three-way string comparison standing in for
a.localeCompare(b): negative when a < b, zero when equal, positive
when a > b. -/
def strCmp (a b : String) : ℤ :=
  if a < b then -1 else if a = b then 0 else 1

/-- The sort comparator of useProducts, switch (sortBy) over the sort
key; any key outside the six recognised ones falls through to the
default branch returning 0. -/
def sortCmp (key : String) (a b : Product) : ℚ :=
  if key = "score" then b.score - a.score
  else if key = "price" then a.price - b.price
  else if key = "price_high" then b.price - a.price
  else if key = "trend" then trendScoreOf b - trendScoreOf a
  else if key = "newest" then ((newestTime b - newestTime a : ℤ) : ℚ)
  else if key = "name" then ((strCmp a.title b.title : ℤ) : ℚ)
  else 0

/-- Insert a in front of the first element b with cmp a b ≤ 0; the
insertion step of a stable insertion sort. -/
def insertCmp (cmp : Product → Product → ℚ) (a : Product) : List Product → List Product
  | [] => [a]
  | b :: bs => if cmp a b ≤ 0 then a :: b :: bs else b :: insertCmp cmp a bs

/-- Stable insertion sort by a numeric comparator.  For a consistent
comparator this computes the unique output that Array.prototype.sort
(stable per the ECMAScript specification) must produce. -/
def sortByCmp (cmp : Product → Product → ℚ) : List Product → List Product
  | [] => []
  | a :: as => insertCmp cmp a (sortByCmp cmp as)

/-- The sort step of useProducts.filteredProducts: stable sort by the
comparator for the given key. -/
def sortProducts (key : String) (ps : List Product) : List Product :=
  sortByCmp (sortCmp key) ps

/-- Left-pad a digit string with zeros up to width d. -/
def padZeros (d : ℕ) (s : String) : String :=
  if d ≤ s.length then s else String.mk (List.replicate (d - s.length) '0') ++ s

/-- Number.prototype.toFixed(d) on an exact rational: round q·10^d to
the nearest integer (halves toward positive infinity, as the
ECMAScript toFixed specification picks the larger candidate) and print
with d digits after the decimal point. -/
def toFixedQ (d : ℕ) (q : ℚ) : String :=
  let n : ℤ := ⌊q * (10 : ℚ) ^ d + 1 / 2⌋
  let m : ℕ := n.natAbs
  let base : ℕ := 10 ^ d
  let sign : String := if n < 0 then "-" else ""
  if d = 0 then sign ++ toString (m)
  else sign ++ toString (m / base) ++ "." ++ padZeros d (toString (m % base))

/-- The stats record computed by useProducts. -/
structure Stats where
  totalProducts : ℕ
  highScoreProducts : ℕ
  averageScore : String
  averagePrice : String
  totalFacebookAds : ℕ
  totalTikTokMentions : ℕ
deriving DecidableEq

/-- useProducts.stats: counts, conditional averages rendered with
toFixed, and totals of the signal-sequence lengths. -/
def statsOf (ps : List Product) : Stats :=
  { totalProducts := ps.length
    highScoreProducts := (ps.filter (fun p => decide (80 ≤ p.score))).length
    averageScore :=
      if 0 < ps.length then toFixedQ 1 ((ps.foldl (fun s p => s + p.score) 0) / ps.length)
      else "0"
    averagePrice :=
      if 0 < ps.length then toFixedQ 2 ((ps.foldl (fun s p => s + p.price) 0) / ps.length)
      else "0"
    totalFacebookAds := ps.foldl (fun s p => s + p.facebook_ads.length) 0
    totalTikTokMentions := ps.foldl (fun s p => s + p.tiktok_mentions.length) 0 }

/-- toggleSavedProduct: remove the id when present, append it when
absent. -/
def toggleSavedProduct (saved : List String) (productId : String) : List String :=
  if saved.contains productId then saved.filter (fun id => id ≠ productId)
  else saved ++ [productId]

/-- JavaScript number values reachable by the margin computation:
exact finite values plus the two infinities and NaN. -/
inductive JsNum where
  | fin (q : ℚ)
  | posInf
  | negInf
  | nan
deriving DecidableEq

/-- Math.min of two values: NaN propagates, otherwise the smaller. -/
def jsMin : JsNum → JsNum → JsNum
  | .nan, _ => .nan
  | _, .nan => .nan
  | .negInf, _ => .negInf
  | _, .negInf => .negInf
  | .posInf, x => x
  | x, .posInf => x
  | .fin p, .fin q => .fin (min p q)

/-- Math.min(...values): fold of jsMin starting from +Infinity, so an
empty argument list yields +Infinity. -/
def jsMinList (l : List ℚ) : JsNum :=
  l.foldl (fun acc q => jsMin acc (.fin q)) .posInf

/-- JavaScript subtraction on the modelled values. -/
def jsSub : JsNum → JsNum → JsNum
  | .nan, _ => .nan
  | _, .nan => .nan
  | .fin a, .fin b => .fin (a - b)
  | .fin _, .posInf => .negInf
  | .fin _, .negInf => .posInf
  | .posInf, .fin _ => .posInf
  | .posInf, .posInf => .nan
  | .posInf, .negInf => .posInf
  | .negInf, .fin _ => .negInf
  | .negInf, .posInf => .negInf
  | .negInf, .negInf => .nan

/-- JavaScript division on the modelled values (the single rational 0
plays the role of +0). -/
def jsDiv : JsNum → JsNum → JsNum
  | .nan, _ => .nan
  | _, .nan => .nan
  | .fin a, .fin b =>
    if b = 0 then (if a = 0 then .nan else if 0 < a then .posInf else .negInf)
    else .fin (a / b)
  | .fin _, .posInf => .fin 0
  | .fin _, .negInf => .fin 0
  | .posInf, .fin b => if 0 ≤ b then .posInf else .negInf
  | .negInf, .fin b => if 0 ≤ b then .negInf else .posInf
  | .posInf, _ => .nan
  | .negInf, _ => .nan

/-- JavaScript multiplication on the modelled values. -/
def jsMul : JsNum → JsNum → JsNum
  | .nan, _ => .nan
  | _, .nan => .nan
  | .fin a, .fin b => .fin (a * b)
  | .fin a, .posInf => if a = 0 then .nan else if 0 < a then .posInf else .negInf
  | .fin a, .negInf => if a = 0 then .nan else if 0 < a then .negInf else .posInf
  | .posInf, .fin b => if b = 0 then .nan else if 0 < b then .posInf else .negInf
  | .negInf, .fin b => if b = 0 then .nan else if 0 < b then .negInf else .posInf
  | .posInf, .posInf => .posInf
  | .posInf, .negInf => .negInf
  | .negInf, .posInf => .negInf
  | .negInf, .negInf => .posInf

/-- The numeric value computed inside getProfitMargin: none when
supplier_prices is absent, otherwise
((price - Math.min(...Object.values(supplier_prices))) / price) * 100. -/
def marginValue (p : Product) : Option JsNum :=
  match p.supplier_prices with
  | none => none
  | some prices =>
    some (jsMul (jsDiv (jsSub (.fin p.price) (jsMinList prices)) (.fin p.price)) (.fin 100))

/-- Rendering of a JavaScript number by toFixed(d). -/
def jsNumToFixed (d : ℕ) : JsNum → String
  | .nan => "NaN"
  | .posInf => "Infinity"
  | .negInf => "-Infinity"
  | .fin q => toFixedQ d q

/-- getProfitMargin of ProductCard and ProductDetailModal: null when
supplier_prices is absent, otherwise the margin percentage rendered
with toFixed(1). -/
def getProfitMargin (p : Product) : Option String :=
  (marginValue p).map (jsNumToFixed 1)

/-- Modelled from the spec: clamping of the composed score to
[0,100]. -/
def clampScore (q : ℚ) : ℚ :=
  max 0 (min 100 q)

/-- Modelled from the spec: rounding to one decimal place for display
stability. -/
def roundTenth (q : ℚ) : ℚ :=
  ((⌊q * 10 + 1 / 2⌋ : ℤ) : ℚ) / 10

/-- Modelled from the spec: the weighted combination of the Score
Composer, score = 100 × (0.30·ads + 0.25·mentions + 0.20·margin +
0.10·trend + 0.15·(1 − saturation)). -/
def composeRaw (ads mentions margin trend saturation : ℚ) : ℚ :=
  100 * (3 / 10 * ads + 1 / 4 * mentions + 1 / 5 * margin
    + 1 / 10 * trend + 3 / 20 * (1 - saturation))

/-- Modelled from the spec: the Score Composer of the Winning-Score
Engine.  Its implementation (score-engine/engine.py) is not in the
available source tree; only its weight table is documented.  Per the
spec the weighted combination is clamped to [0,100] and rounded to one
decimal place. -/
def composeScore (ads mentions margin trend saturation : ℚ) : ℚ :=
  roundTenth (clampScore (composeRaw ads mentions margin trend saturation))

/-- Modelled from the spec: the five normalized sub-scores of a
product, each absent when its upstream signal is missing. -/
structure SignalInputs where
  ads : Option ℚ
  mentions : Option ℚ
  margin : Option ℚ
  trend : Option ℚ
  saturation : Option ℚ
deriving DecidableEq

/-- Modelled from the spec: composing the Winning Score from possibly
missing signals; ads, mentions, margin and trend default to 0 and
saturation defaults to the neutral mid-value 0.5. -/
def composeFromSignals (s : SignalInputs) : ℚ :=
  composeScore (s.ads.getD 0) (s.mentions.getD 0) (s.margin.getD 0)
    (s.trend.getD 0) (s.saturation.getD (1 / 2))

/-- A reference product used for the concrete instances below. -/
def baseProduct : Product :=
  { id := "base", title := "Widget", description := "a widget", price := 10,
    compare_price := 0, score := 50, category := "gadgets", tags := [],
    source_store := "store1", facebook_ads := [], tiktok_mentions := [],
    trend_data := none, supplier_prices := none, created_at := none }

/-- The all-zero stats record required on an empty product set. -/
def emptyStats : Stats :=
  { totalProducts := 0, highScoreProducts := 0, averageScore := "0",
    averagePrice := "0", totalFacebookAds := 0, totalTikTokMentions := 0 }

/-- Score 50, id "a": one of two score-tied products. -/
def prodTieA : Product := { baseProduct with id := "a" }

/-- Score 50, id "b": the other score-tied product. -/
def prodTieB : Product := { baseProduct with id := "b" }

/-- A product whose creation date lies before the Unix epoch. -/
def prodPreEpoch : Product := { baseProduct with id := "old", created_at := some (-1) }

/-- A product with no creation date. -/
def prodNoDate : Product := { baseProduct with id := "nodate" }

/-- A product created on 2024-01-01 (epoch milliseconds). -/
def prodDated : Product := { baseProduct with id := "dated", created_at := some 1704067200000 }

/-- A product priced just above the default price cap. -/
def prodExpensive : Product := { baseProduct with id := "exp", price := 1001 }

/-- The same product priced exactly at the default price cap. -/
def prodAffordable : Product := { baseProduct with id := "aff", price := 1000 }

/-- A product with score 40. -/
def prodScore40 : Product := { baseProduct with id := "w1", score := 40 }

/-- A product with score 90, price 20 and some signal records. -/
def prodScore90 : Product :=
  { baseProduct with id := "w2", score := 90, price := 20, facebook_ads := [(), ()], tiktok_mentions := [()] }

/-- Price 50 with supplier costs 20 and 30. -/
def prodMargin : Product := { baseProduct with id := "m", price := 50, supplier_prices := some [20, 30] }

/-- Price 50 with a present but empty supplier-price mapping. -/
def prodMarginEmptyMap : Product := { baseProduct with id := "me", price := 50, supplier_prices := some [] }

/-- isPrefixOfB decides the prefix relation. -/
theorem isPrefixOfB_iff (as bs : List Char) : isPrefixOfB as bs = true ↔ as <+: bs := by
  induction as generalizing bs with
  | nil => simp [isPrefixOfB]
  | cons a as ih =>
    cases bs with
    | nil => simp [isPrefixOfB]
    | cons b bs =>
      rw [show isPrefixOfB (a :: as) (b :: bs) = (a == b && isPrefixOfB as bs) from rfl]
      rw [Bool.and_eq_true, beq_iff_eq, ih, List.cons_prefix_cons]

/-- containsSub decides the contiguous-substring (infix) relation. -/
theorem containsSub_iff (needle hay : List Char) :
    containsSub needle hay = true ↔ needle <:+: hay := by
  induction hay with
  | nil =>
    rw [show containsSub needle [] = isPrefixOfB needle [] from rfl, isPrefixOfB_iff]
    simp
  | cons c t ih =>
    rw [show containsSub needle (c :: t)
          = (isPrefixOfB needle (c :: t) || containsSub needle t) from rfl,
      Bool.or_eq_true, isPrefixOfB_iff, ih, List.infix_cons_iff]

/-- The empty string is a substring of everything. -/
theorem containsSub_nil (hay : List Char) : containsSub [] hay = true :=
  (containsSub_iff [] hay).2 List.nil_infix

/-- Lowercasing the empty string yields no characters. -/
theorem lowerChars_empty : lowerChars "" = [] := rfl

/-- Inserting with insertCmp permutes the extended list. -/
theorem insertCmp_perm (cmp : Product → Product → ℚ) (a : Product) (l : List Product) :
    (insertCmp cmp a l).Perm (a :: l) := by
  induction l with
  | nil => simp [insertCmp]
  | cons b bs ih =>
    by_cases h : cmp a b ≤ 0
    · simp [insertCmp, h]
    · simp only [insertCmp, if_neg h]
      exact (ih.cons b).trans (List.Perm.swap a b bs)

/-- sortByCmp permutes its input. -/
theorem sortByCmp_perm (cmp : Product → Product → ℚ) (l : List Product) :
    (sortByCmp cmp l).Perm l := by
  induction l with
  | nil => simp [sortByCmp]
  | cons a as ih => exact (insertCmp_perm cmp a (sortByCmp cmp as)).trans (ih.cons a)

/-- insertCmp preserves sortedness for a total, transitive comparator. -/
theorem insertCmp_pairwise (cmp : Product → Product → ℚ)
    (htot : ∀ a b, ¬ cmp a b ≤ 0 → cmp b a ≤ 0)
    (htrans : ∀ a b c, cmp a b ≤ 0 → cmp b c ≤ 0 → cmp a c ≤ 0)
    (a : Product) (l : List Product)
    (hl : l.Pairwise (fun x y => cmp x y ≤ 0)) :
    (insertCmp cmp a l).Pairwise (fun x y => cmp x y ≤ 0) := by
  induction l with
  | nil => simp [insertCmp]
  | cons b bs ih =>
    rcases List.pairwise_cons.1 hl with ⟨hb, hbs⟩
    by_cases h : cmp a b ≤ 0
    · rw [insertCmp, if_pos h]
      refine List.pairwise_cons.2 ⟨?_, hl⟩
      intro y hy
      rcases List.mem_cons.1 hy with rfl | hy'
      · exact h
      · exact htrans a b y h (hb y hy')
    · rw [insertCmp, if_neg h]
      refine List.pairwise_cons.2 ⟨?_, ih hbs⟩
      intro y hy
      have hy' := (insertCmp_perm cmp a bs).mem_iff.1 hy
      rcases List.mem_cons.1 hy' with rfl | hy''
      · exact htot _ _ h
      · exact hb y hy''

/-- sortByCmp output is pairwise ordered by the comparator. -/
theorem sortByCmp_pairwise (cmp : Product → Product → ℚ)
    (htot : ∀ a b, ¬ cmp a b ≤ 0 → cmp b a ≤ 0)
    (htrans : ∀ a b c, cmp a b ≤ 0 → cmp b c ≤ 0 → cmp a c ≤ 0)
    (l : List Product) :
    (sortByCmp cmp l).Pairwise (fun x y => cmp x y ≤ 0) := by
  induction l with
  | nil => simp [sortByCmp]
  | cons a as ih => exact insertCmp_pairwise cmp htot htrans a _ ih

/-- Sorting an already ordered list leaves it unchanged. -/
theorem sortByCmp_eq_of_pairwise (cmp : Product → Product → ℚ) (l : List Product)
    (hl : l.Pairwise (fun x y => cmp x y ≤ 0)) : sortByCmp cmp l = l := by
  induction l with
  | nil => rfl
  | cons a as ih =>
    rcases List.pairwise_cons.1 hl with ⟨ha, has⟩
    rw [sortByCmp, ih has]
    cases as with
    | nil => rfl
    | cons b bs => rw [insertCmp, if_pos (ha b (List.mem_cons_self b bs))]

/-- sortByCmp is idempotent for a total, transitive comparator. -/
theorem sortByCmp_idem (cmp : Product → Product → ℚ)
    (htot : ∀ a b, ¬ cmp a b ≤ 0 → cmp b a ≤ 0)
    (htrans : ∀ a b c, cmp a b ≤ 0 → cmp b c ≤ 0 → cmp a c ≤ 0)
    (l : List Product) : sortByCmp cmp (sortByCmp cmp l) = sortByCmp cmp l :=
  sortByCmp_eq_of_pairwise cmp _ (sortByCmp_pairwise cmp htot htrans l)

/-- Sorting with the constant-zero comparator is the identity. -/
theorem sortByCmp_zero (l : List Product) : sortByCmp (fun _ _ => (0 : ℚ)) l = l :=
  sortByCmp_eq_of_pairwise _ l (by
    induction l with
    | nil => exact List.Pairwise.nil
    | cons a as ih => exact List.pairwise_cons.2 ⟨fun y _ => le_refl 0, ih⟩)

/-- Sorting a two-element list compares the two elements once. -/
theorem sortByCmp_pair (cmp : Product → Product → ℚ) (q p : Product) :
    sortByCmp cmp [q, p] = if cmp q p ≤ 0 then [q, p] else [p, q] := by
  by_cases h : cmp q p ≤ 0
  · simp [sortByCmp, insertCmp, h]
  · simp [sortByCmp, insertCmp, h]

/-- Inserting an element whose key equals q places it in front of the
filtered q-class (the skipped elements all have strictly larger keys);
inserting an element of another class leaves the q-class untouched. -/
theorem insertCmp_filter_class (cmp : Product → Product → ℚ) (keyf : Product → ℚ)
    (hcmp : ∀ a b, cmp a b ≤ 0 ↔ keyf b ≤ keyf a) (q : ℚ) (a : Product)
    (t : List Product) :
    (insertCmp cmp a t).filter (fun p => keyf p == q)
      = (if keyf a == q then a :: t.filter (fun p => keyf p == q)
         else t.filter (fun p => keyf p == q)) := by
  induction t with
  | nil =>
    by_cases hq : keyf a = q
    · simp [insertCmp, hq]
    · simp [insertCmp, hq]
  | cons b bs ih =>
    by_cases h : cmp a b ≤ 0
    · rw [insertCmp, if_pos h]
      by_cases hq : keyf a = q
      · simp [List.filter_cons, hq]
      · simp [List.filter_cons, hq]
    · rw [insertCmp, if_neg h]
      have hb : ¬ keyf b ≤ keyf a := fun hle => h ((hcmp a b).2 hle)
      by_cases hq : keyf a = q
      · have hbq : keyf b ≠ q := by
          intro hbq
          exact hb (by rw [hbq, hq])
        simp [List.filter_cons, beq_eq_false_iff_ne.2 hbq, ih, hq]
      · simp [List.filter_cons, ih, hq]

/-- Stability of the stable insertion sort: for every key value q, the
subsequence of elements whose key equals q is unchanged by sorting. -/
theorem sortByCmp_filter_class (cmp : Product → Product → ℚ) (keyf : Product → ℚ)
    (hcmp : ∀ a b, cmp a b ≤ 0 ↔ keyf b ≤ keyf a) (q : ℚ) (l : List Product) :
    (sortByCmp cmp l).filter (fun p => keyf p == q) = l.filter (fun p => keyf p == q) := by
  induction l with
  | nil => rfl
  | cons a as ih =>
    rw [sortByCmp, insertCmp_filter_class cmp keyf hcmp q a _]
    by_cases hq : keyf a = q
    · simp [List.filter_cons, hq, ih]
    · simp [List.filter_cons, hq, ih]

/-- An unrecognised key reaches the default branch of the comparator. -/
theorem sortCmp_unknown (key : String)
    (h1 : key ≠ "score") (h2 : key ≠ "price") (h3 : key ≠ "price_high")
    (h4 : key ≠ "trend") (h5 : key ≠ "newest") (h6 : key ≠ "name") :
    sortCmp key = fun _ _ => (0 : ℚ) := by
  funext a b
  simp [sortCmp, h1, h2, h3, h4, h5, h6]

/-- The score comparator subtracts scores in descending orientation. -/
theorem scoreCmp_eq (a b : Product) : sortCmp "score" a b = b.score - a.score := by
  simp [sortCmp]

/-- The newest comparator subtracts creation times in descending
orientation. -/
theorem newestCmp_eq (a b : Product) :
    sortCmp "newest" a b = ((newestTime b - newestTime a : ℤ) : ℚ) := by
  simp [sortCmp]

/-- List.contains agrees with membership on strings. -/
theorem contains_iff_mem (l : List String) (a : String) : l.contains a = true ↔ a ∈ l := by
  simp

/-- Toggling an id that is present filters it out. -/
theorem toggle_of_mem (l : List String) (i : String) (h : i ∈ l) :
    toggleSavedProduct l i = l.filter (fun id => id ≠ i) := by
  rw [toggleSavedProduct, if_pos ((contains_iff_mem l i).2 h)]

/-- Toggling an id that is absent appends it. -/
theorem toggle_of_not_mem (l : List String) (i : String) (h : i ∉ l) :
    toggleSavedProduct l i = l ++ [i] := by
  rw [toggleSavedProduct, if_neg]
  intro hc
  exact h ((contains_iff_mem l i).1 hc)

/-- Folding jsMin from a finite seed stays finite and computes the
minimum. -/
theorem foldl_jsMin_fin (as : List ℚ) (a : ℚ) :
    as.foldl (fun acc q => jsMin acc (.fin q)) (.fin a) = .fin (as.foldl min a) := by
  induction as generalizing a with
  | nil => rfl
  | cons b bs ih =>
    rw [List.foldl_cons, List.foldl_cons]
    exact ih (min a b)

/-- Math.min over a non-empty list of rationals is their minimum. -/
theorem jsMinList_cons (a : ℚ) (as : List ℚ) :
    jsMinList (a :: as) = .fin (as.foldl min a) := by
  unfold jsMinList
  rw [List.foldl_cons]
  exact foldl_jsMin_fin as a

/-- The clamp is bounded below by 0. -/
theorem clampScore_nonneg (q : ℚ) : 0 ≤ clampScore q := le_max_left 0 _

/-- The clamp is bounded above by 100. -/
theorem clampScore_le (q : ℚ) : clampScore q ≤ 100 :=
  max_le (by norm_num) (min_le_left 100 q)

/-- Rounding to a tenth preserves nonnegativity. -/
theorem roundTenth_nonneg (q : ℚ) (h : 0 ≤ q) : 0 ≤ roundTenth q := by
  unfold roundTenth
  have h2 : (0 : ℤ) ≤ ⌊q * 10 + 1 / 2⌋ := Int.floor_nonneg.2 (by linarith)
  have h3 : (0 : ℚ) ≤ (⌊q * 10 + 1 / 2⌋ : ℚ) := by exact_mod_cast h2
  linarith

/-- Rounding to a tenth preserves the bound 100. -/
theorem roundTenth_le_100 (q : ℚ) (h : q ≤ 100) : roundTenth q ≤ 100 := by
  unfold roundTenth
  have h1 : ⌊q * 10 + 1 / 2⌋ ≤ ⌊(2001 : ℚ) / 2⌋ := Int.floor_le_floor (by linarith)
  have h2 : ⌊(2001 : ℚ) / 2⌋ = 1000 := by with_unfolding_all decide
  have h3 : ((⌊q * 10 + 1 / 2⌋ : ℤ) : ℚ) ≤ 1000 := by
    rw [h2] at h1
    exact_mod_cast h1
  linarith

/-- C1: the filter predicate accepts a product if and only if all five
clauses hold conjointly: the search term is a case-insensitive
substring of title or description (empty term accepts everything), the
category matches or is the sentinel "all", the score is at least
minScore, the price is at most maxPrice, and the requested tag set is
empty or intersects the tags of the product.  The predicate is a total
Boolean function of its inputs. -/
theorem c1_filter_predicate_iff (f : FilterOptions) (p : Product) :
    filterPred f p = true ↔
      ((f.searchTerm = "" ∨
          lowerChars f.searchTerm <:+: lowerChars p.title ∨
          lowerChars f.searchTerm <:+: lowerChars p.description) ∧
        (f.category = "all" ∨ p.category = f.category) ∧
        f.minScore ≤ p.score ∧
        p.price ≤ f.maxPrice ∧
        (f.tags = [] ∨ ∃ t ∈ f.tags, t ∈ p.tags)) := by
  unfold filterPred strIncludesLower
  simp only [Bool.and_eq_true, Bool.or_eq_true, decide_eq_true_eq, beq_iff_eq,
    List.isEmpty_eq_true, List.any_eq_true, containsSub_iff, List.elem_iff]
  constructor
  · rintro ⟨⟨⟨⟨hs, hc⟩, hm⟩, hp⟩, ht⟩
    exact ⟨Or.inr hs, hc, hm, hp, ht⟩
  · rintro ⟨hs, hc, hm, hp, ht⟩
    refine ⟨⟨⟨⟨?_, hc⟩, hm⟩, hp⟩, ht⟩
    rcases hs with hs | hs | hs
    · left
      rw [hs]
      exact List.nil_infix
    · exact Or.inl hs
    · exact Or.inr hs

/-- C2 counterexample: two products with equal scores are NOT reordered
by id: sorting [prodTieB, prodTieA] by score keeps prodTieB (id "b")
before prodTieA (id "a") although their scores are equal and "a"
precedes "b", refuting the claimed id-ascending tie-break. -/
theorem c2_counterexample :
    sortProducts "score" [prodTieB, prodTieA] = [prodTieB, prodTieA] ∧
    prodTieB.score = prodTieA.score ∧
    prodTieA.id.toList < prodTieB.id.toList ∧ prodTieA.id ≠ prodTieB.id := by
  refine ⟨by with_unfolding_all decide, by with_unfolding_all decide, by decide, by decide⟩

/-- C2 amended: sorting by the "score" key orders the list by score
descending; every pair of products with equal scores keeps its original
relative order (stated generally: for every score value q, the
subsequence of products scoring q is unchanged by the sort, so no id
tie-break occurs); sorting an already score-sorted list by "score"
again yields the same order. -/
theorem c2_score_sort_amended (l : List Product) :
    ((sortProducts "score" l).Pairwise (fun a b => b.score ≤ a.score)) ∧
    (sortProducts "score" l).Perm l ∧
    (∀ q : ℚ, (sortProducts "score" l).filter (fun p => p.score == q)
        = l.filter (fun p => p.score == q)) ∧
    sortProducts "score" (sortProducts "score" l) = sortProducts "score" l := by
  have htot : ∀ a b : Product, ¬ sortCmp "score" a b ≤ 0 → sortCmp "score" b a ≤ 0 := by
    intro a b h
    rw [scoreCmp_eq] at *
    linarith
  have htrans : ∀ a b c : Product,
      sortCmp "score" a b ≤ 0 → sortCmp "score" b c ≤ 0 → sortCmp "score" a c ≤ 0 := by
    intro a b c hab hbc
    rw [scoreCmp_eq] at *
    linarith
  have hcmp : ∀ a b : Product, sortCmp "score" a b ≤ 0 ↔ b.score ≤ a.score := by
    intro a b
    rw [scoreCmp_eq]
    constructor
    · intro h
      linarith
    · intro h
      linarith
  refine ⟨?_, sortByCmp_perm _ l, ?_, sortByCmp_idem _ htot htrans l⟩
  · refine (sortByCmp_pairwise _ htot htrans l).imp ?_
    intro a b h
    rw [scoreCmp_eq] at h
    linarith
  · intro q
    exact sortByCmp_filter_class _ Product.score hcmp q l

/-- C3 counterexample: a missing created_at is NOT treated as the
earliest possible instant: a product dated before the Unix epoch
(created_at = -1 ms) sorts AFTER a product with no date, because
missing dates are mapped to the epoch (time 0), refuting the claim for
pre-epoch dates. -/
theorem c3_counterexample :
    prodPreEpoch.created_at = some (-1) ∧ prodNoDate.created_at = none ∧
    sortProducts "newest" [prodPreEpoch, prodNoDate] = [prodNoDate, prodPreEpoch] := by
  refine ⟨rfl, rfl, by with_unfolding_all decide⟩

/-- C3 amended: sorting by "newest" is descending by created_at with a
missing created_at treated as the Unix epoch (time 0), not as the
earliest possible instant; consequently any product with a positive
(post-epoch) date such as 2024-01-01 sorts before a product with a
missing date. -/
theorem c3_newest_sort_amended :
    (∀ p : Product, p.created_at = none → newestTime p = 0) ∧
    (∀ (p q : Product) (t : ℤ), p.created_at = some t → 0 < t → q.created_at = none →
      sortProducts "newest" [q, p] = [p, q]) ∧
    (∀ l : List Product,
      (sortProducts "newest" l).Pairwise (fun a b => newestTime b ≤ newestTime a)) := by
  refine ⟨?_, ?_, ?_⟩
  · intro p hp
    unfold newestTime
    rw [hp]
  · intro p q t hp ht hq
    have hqp : ¬ sortCmp "newest" q p ≤ 0 := by
      rw [newestCmp_eq]
      unfold newestTime
      rw [hp, hq]
      simp only [Int.cast_sub, sub_nonpos, not_le, sub_zero, Int.cast_zero]
      exact_mod_cast ht
    unfold sortProducts
    rw [sortByCmp_pair, if_neg hqp]
  · intro l
    have htot : ∀ a b : Product, ¬ sortCmp "newest" a b ≤ 0 → sortCmp "newest" b a ≤ 0 := by
      intro a b h
      rw [newestCmp_eq] at *
      push_cast at *
      linarith
    have htrans : ∀ a b c : Product,
        sortCmp "newest" a b ≤ 0 → sortCmp "newest" b c ≤ 0 → sortCmp "newest" a c ≤ 0 := by
      intro a b c hab hbc
      rw [newestCmp_eq] at *
      push_cast at *
      linarith
    refine (sortByCmp_pairwise _ htot htrans l).imp ?_
    intro a b h
    rw [newestCmp_eq] at h
    have h' : ((newestTime b : ℚ)) ≤ ((newestTime a : ℚ)) := by
      push_cast at h
      linarith
    exact_mod_cast h'

/-- C3 witness: the dated product (2024-01-01) sorts before the product
with a missing created_at. -/
theorem c3_newest_sort_witness :
    prodDated.created_at = some 1704067200000 ∧ (0 : ℤ) < 1704067200000 ∧
    prodNoDate.created_at = none ∧
    sortProducts "newest" [prodNoDate, prodDated] = [prodDated, prodNoDate] :=
  ⟨rfl, by decide, rfl,
    c3_newest_sort_amended.2.1 prodDated prodNoDate 1704067200000 rfl (by decide) rfl⟩

/-- C4: the stats aggregation on the empty set returns totalProducts 0,
averageScore "0", averagePrice "0" and zero ad/mention totals without
error; on a non-empty set the mean score is rendered to one decimal
place, the mean price to two decimal places, and the high-score count
is the number of products with score at least 80. -/
theorem c4_stats_aggregator (ps : List Product) :
    statsOf [] = emptyStats ∧
    (ps ≠ [] →
      (statsOf ps).averageScore
          = toFixedQ 1 ((ps.foldl (fun s p => s + p.score) 0) / ps.length) ∧
      (statsOf ps).averagePrice
          = toFixedQ 2 ((ps.foldl (fun s p => s + p.price) 0) / ps.length) ∧
      (statsOf ps).highScoreProducts
          = (ps.filter (fun p => decide ((80 : ℚ) ≤ p.score))).length) := by
  constructor
  · rfl
  · intro h
    have hl : 0 < ps.length := List.length_pos.2 h
    unfold statsOf
    simp [hl]

/-- C4 witness: the aggregation clauses at the concrete two-product
list. -/
theorem c4_stats_witness :
    (([prodScore40, prodScore90] : List Product) ≠ []) ∧
    ((statsOf [prodScore40, prodScore90]).averageScore
        = toFixedQ 1 (([prodScore40, prodScore90].foldl (fun s p => s + p.score) 0)
            / ([prodScore40, prodScore90] : List Product).length) ∧
      (statsOf [prodScore40, prodScore90]).averagePrice
        = toFixedQ 2 (([prodScore40, prodScore90].foldl (fun s p => s + p.price) 0)
            / ([prodScore40, prodScore90] : List Product).length) ∧
      (statsOf [prodScore40, prodScore90]).highScoreProducts
        = ([prodScore40, prodScore90].filter (fun p => decide ((80 : ℚ) ≤ p.score))).length) :=
  ⟨by simp, (c4_stats_aggregator [prodScore40, prodScore90]).2 (by simp)⟩

set_option maxRecDepth 4000 in
/-- C5 counterexample: the default filter state DOES exclude on price:
a product priced 1001 is rejected while the identical product priced
1000 is accepted, because the initial maxPrice is 1000, not
unbounded. -/
theorem c5_counterexample :
    filterPred defaultFilterOptions prodExpensive = false ∧
    filterPred defaultFilterOptions prodAffordable = true ∧
    prodExpensive.price = 1001 ∧ prodExpensive.score = 50 ∧
    prodExpensive.category = baseProduct.category ∧ prodExpensive.tags = [] := by
  refine ⟨by with_unfolding_all decide, by with_unfolding_all decide,
    by with_unfolding_all decide, by with_unfolding_all decide, rfl, rfl⟩

/-- C5 amended: the initial filter state carries maxPrice = 1000 rather
than an unbounded default; under it the price clause is price ≤ 1000:
any product with price above 1000 is excluded, and any product with
price at most 1000 and nonnegative score is accepted. -/
theorem c5_default_max_price_amended (p : Product) :
    (1000 < p.price → filterPred defaultFilterOptions p = false) ∧
    (p.price ≤ 1000 → 0 ≤ p.score → filterPred defaultFilterOptions p = true) := by
  constructor
  · intro h
    unfold filterPred defaultFilterOptions strIncludesLower
    simp [lowerChars_empty, containsSub_nil, show ¬ p.price ≤ 1000 from not_le.2 h]
  · intro h1 h2
    unfold filterPred defaultFilterOptions strIncludesLower
    simp [lowerChars_empty, containsSub_nil, h1, h2]

set_option maxRecDepth 4000 in
/-- C5 witness: both amended clauses at the concrete products. -/
theorem c5_default_max_price_witness :
    (1000 < prodExpensive.price ∧ filterPred defaultFilterOptions prodExpensive = false) ∧
    (prodAffordable.price ≤ 1000 ∧ (0 : ℚ) ≤ prodAffordable.score ∧
      filterPred defaultFilterOptions prodAffordable = true) :=
  ⟨⟨by with_unfolding_all decide,
    (c5_default_max_price_amended prodExpensive).1 (by with_unfolding_all decide)⟩,
   ⟨by with_unfolding_all decide, by with_unfolding_all decide,
    (c5_default_max_price_amended prodAffordable).2 (by with_unfolding_all decide)
      (by with_unfolding_all decide)⟩⟩

/-- C6 counterexample: the margin computation is a PERCENTAGE, not a
clamped [0,1] sub-score: at price 50 with minimum supplier cost 20 it
yields 60 (rendered "60.0"), which exceeds 1 and differs from
max(0,(50-20)/50); and a present-but-empty supplier_prices mapping
yields -Infinity, not 0. -/
theorem c6_counterexample :
    marginValue prodMargin = some (JsNum.fin 60) ∧
    getProfitMargin prodMargin = some "60.0" ∧
    ¬ ((60 : ℚ) ≤ 1) ∧ (60 : ℚ) ≠ max 0 ((prodMargin.price - 20) / prodMargin.price) ∧
    marginValue prodMarginEmptyMap = some JsNum.negInf ∧
    getProfitMargin prodMarginEmptyMap = some "-Infinity" := by
  refine ⟨by with_unfolding_all decide, by with_unfolding_all decide,
    by with_unfolding_all decide, by with_unfolding_all decide,
    by with_unfolding_all decide, by with_unfolding_all decide⟩

/-- C6 amended: getProfitMargin returns null when supplier_prices is
absent; for a present non-empty mapping and nonzero price it computes
((price - min supplier cost) / price) × 100 exactly, unclamped; for a
present-but-empty mapping and positive price the value is -Infinity
rather than 0. -/
theorem c6_margin_amended :
    (∀ p : Product, p.supplier_prices = none → getProfitMargin p = none) ∧
    (∀ (p : Product) (a : ℚ) (as : List ℚ), p.supplier_prices = some (a :: as) →
      p.price ≠ 0 →
      marginValue p = some (JsNum.fin ((p.price - as.foldl min a) / p.price * 100))) ∧
    (∀ p : Product, p.supplier_prices = some [] → 0 < p.price →
      marginValue p = some JsNum.negInf) := by
  refine ⟨?_, ?_, ?_⟩
  · intro p hp
    unfold getProfitMargin marginValue
    rw [hp]
    rfl
  · intro p a as hp hprice
    unfold marginValue
    rw [hp]
    show some (jsMul (jsDiv (jsSub (JsNum.fin p.price) (jsMinList (a :: as)))
      (JsNum.fin p.price)) (JsNum.fin 100)) = _
    rw [jsMinList_cons]
    rw [show jsSub (.fin p.price) (.fin (as.foldl min a))
          = .fin (p.price - as.foldl min a) from rfl]
    rw [show jsDiv (.fin (p.price - as.foldl min a)) (.fin p.price)
          = .fin ((p.price - as.foldl min a) / p.price) from by simp [jsDiv, hprice]]
    rfl
  · intro p hp hpos
    unfold marginValue
    rw [hp]
    show some (jsMul (jsDiv (jsSub (JsNum.fin p.price) (jsMinList []))
      (JsNum.fin p.price)) (JsNum.fin 100)) = _
    rw [show jsMinList [] = JsNum.posInf from rfl]
    rw [show jsSub (JsNum.fin p.price) JsNum.posInf = JsNum.negInf from rfl]
    rw [show jsDiv JsNum.negInf (JsNum.fin p.price) = JsNum.negInf from by
      simp [jsDiv, le_of_lt hpos]]
    rfl

/-- C6 witness: the amended margin formula at price 50 with supplier
costs 20 and 30, and the -Infinity value at the present-but-empty
supplier mapping. -/
theorem c6_margin_witness :
    (prodMargin.supplier_prices = some (20 :: [30]) ∧ prodMargin.price ≠ 0 ∧
      marginValue prodMargin
        = some (JsNum.fin ((prodMargin.price - [(30 : ℚ)].foldl min 20) / prodMargin.price * 100))) ∧
    (prodMarginEmptyMap.supplier_prices = some [] ∧ 0 < prodMarginEmptyMap.price ∧
      marginValue prodMarginEmptyMap = some JsNum.negInf) :=
  ⟨⟨rfl, by with_unfolding_all decide,
    c6_margin_amended.2.1 prodMargin 20 [30] rfl (by with_unfolding_all decide)⟩,
   ⟨rfl, by with_unfolding_all decide,
    c6_margin_amended.2.2 prodMarginEmptyMap rfl (by with_unfolding_all decide)⟩⟩

/-- C7: applying the same filter predicate twice is idempotent:
filtering an already-filtered list with the same predicate returns the
identical list. -/
theorem c7_filter_idempotent (f : FilterOptions) (ps : List Product) :
    filterProducts f (filterProducts f ps) = filterProducts f ps := by
  unfold filterProducts
  induction ps with
  | nil => rfl
  | cons a as ih =>
    by_cases h : filterPred f a
    · simp [List.filter_cons, h, ih]
    · simp [List.filter_cons, h, ih]

/-- C8: for every product list and every sort key outside the six
recognised ones, the sort step returns the list in its original order
and never errors. -/
theorem c8_unknown_sort_key (key : String) (ps : List Product)
    (h : key ∉ (["score", "price", "price_high", "trend", "newest", "name"] : List String)) :
    sortProducts key ps = ps := by
  simp only [List.mem_cons, List.not_mem_nil, or_false, not_or] at h
  obtain ⟨h1, h2, h3, h4, h5, h6⟩ := h
  unfold sortProducts
  rw [sortCmp_unknown key h1 h2 h3 h4 h5 h6, sortByCmp_zero]

/-- C8 witness: the unknown key "bogus" leaves a list unchanged. -/
theorem c8_unknown_sort_key_witness :
    ("bogus" ∉ (["score", "price", "price_high", "trend", "newest", "name"] : List String)) ∧
    sortProducts "bogus" [prodTieA] = [prodTieA] :=
  ⟨by decide, c8_unknown_sort_key "bogus" [prodTieA] (by decide)⟩

/-- C9: for every combination of signal inputs, including absent ones,
the composed Winning Score lies in [0,100]; composing from a product
with all signals missing yields exactly 7.5.  The Score Composer is
modelled from the spec because its implementation is not in the
available source tree. -/
theorem c9_compose_score_range :
    (∀ s : SignalInputs, 0 ≤ composeFromSignals s ∧ composeFromSignals s ≤ 100) ∧
    composeFromSignals ⟨none, none, none, none, none⟩ = 15 / 2 := by
  constructor
  · intro s
    unfold composeFromSignals composeScore
    exact ⟨roundTenth_nonneg _ (clampScore_nonneg _), roundTenth_le_100 _ (clampScore_le _)⟩
  · with_unfolding_all decide

/-- C10: toggleSavedProduct flips exactly the membership of the given
id: after one application the id is a member if and only if it was not
before, membership of every other id is unchanged, and applying it
twice with the same id restores the original membership. -/
theorem c10_toggle_membership (l : List String) (i : String) :
    (i ∈ toggleSavedProduct l i ↔ i ∉ l) ∧
    (∀ j, j ≠ i → (j ∈ toggleSavedProduct l i ↔ j ∈ l)) ∧
    (∀ j, j ∈ toggleSavedProduct (toggleSavedProduct l i) i ↔ j ∈ l) := by
  by_cases h : i ∈ l
  · rw [toggle_of_mem l i h]
    have hnm : i ∉ l.filter (fun id => id ≠ i) := by simp
    rw [toggle_of_not_mem _ i hnm]
    refine ⟨by simp [h], ?_, ?_⟩
    · intro j hj
      simp [hj]
    · intro j
      by_cases hj : j = i
      · subst hj
        simp [h]
      · simp [hj]
  · rw [toggle_of_not_mem l i h]
    have hm : i ∈ l ++ [i] := by simp
    rw [toggle_of_mem _ i hm]
    refine ⟨by simp [h], ?_, ?_⟩
    · intro j hj
      simp [hj]
    · intro j
      by_cases hj : j = i
      · subst hj
        simp [h]
      · simp [hj]

/-- C10 witness: toggling "y" into ["x"] leaves membership of "x"
unchanged. -/
theorem c10_toggle_membership_witness :
    (("x" : String) ≠ "y") ∧
    (("x" : String) ∈ toggleSavedProduct ["x"] "y" ↔ ("x" : String) ∈ (["x"] : List String)) :=
  ⟨by decide, (c10_toggle_membership ["x"] "y").2.1 "x" (by decide)⟩
